import Mathlib

/-!
Shallow embedding of the GnuCash_yfinance price-ingestion pipeline.

Dates are modelled as day numbers (`Nat`), prices as exact rationals (`ℚ`);
Python `None` becomes `Option.none`, raised exceptions become `Except.error`.
Each definition is translated from the repository's source files, noted on
the definition itself.
-/

set_option maxRecDepth 8000

namespace GnuCashYF

/-- A Python-level fault that the embedded code can raise. -/
inductive PyError
  /-- Python `TypeError`, e.g. from `None + timedelta(1)`. -/
  | typeError
  /-- Python `IndexError` raised inside the yfinance library. -/
  | indexError
  /-- Python `NameError`, e.g. from referencing a module that was never
  imported. -/
  | nameError
  /-- Any other fault raised by the yfinance library. -/
  | yfOther (msg : String)
  deriving DecidableEq, Repr

/-- The window passed to `yfinance.Ticker(...).history(...)`: either an
explicit `start`/`end` date pair or a named relative period string
(`df.py`, `DF._get_yf` / `CommodityDataFrame._get_yf`). -/
inductive FetchWindow
  /-- An explicit call `history(start = ..., end = ...)`. -/
  | range (startDate endDate : Nat)
  /-- A named-period call `history(period)`. -/
  | period (p : String)
  deriving DecidableEq, Repr

/-- Fetch-window resolution, from `df.py` `_get_yf` (both
`DF._get_yf`, src/df.py lines 110-119, and `CommodityDataFrame._get_yf`,
src/GnuCash_yfinance/df.py lines 88-101, branch identically):

```python
if self.start_date:
    ... history(start = self.start_date, end = self.end_date)
else:
    if self.period == 'auto':
        start_date = self.commodity.last_price_date + timedelta(1)
        ... history(start = start_date, end = self.end_date)
    else:
        ... history(self.period)
```

`last_price_date + timedelta(1)` on a Python `None` raises `TypeError`
(there is no `None` check in either source file), so the `none` case of
`lastPriceDate` maps to `Except.error PyError.typeError`. -/
def resolveWindow (startDate : Option Nat) (endDate : Nat) (period : String)
    (lastPriceDate : Option Nat) : Except PyError FetchWindow :=
  match startDate with
  | some s => .ok (.range s endDate)
  | none =>
    if period = "auto" then
      match lastPriceDate with
      | some d => .ok (.range (d + 1) endDate)
      | none => .error .typeError
    else
      .ok (.period period)

/-- Banker's rounding (round half to even) of a rational to an integer,
the rounding mode used by `pandas.Series.round` / numpy on the `Close`
column. -/
def roundHalfEven (q : ℚ) : ℤ :=
  let f := ⌊q⌋
  let r := q - f
  if r < 1 / 2 then f
  else if 1 / 2 < r then f + 1
  else if Even f then f else f + 1

/-- The value `q` rounded to `d` decimal places, as in `Close.round(decimals = d)`
(`df.py`, `_set_full`). -/
def roundTo (d : Nat) (q : ℚ) : ℚ :=
  (roundHalfEven (q * 10 ^ d) : ℚ) / 10 ^ d

/-- GnuCash commodity row as consumed by the pipeline: the columns selected
by `MDB._get_commodities` (src/mdb.py lines 104-110). -/
structure Commodity where
  guid : String
  nameSpace : String
  mnemonic : String
  fullname : String
  currency_guid : String
  last_price_date : Option Nat
  value_denom : ℤ
  deriving DecidableEq, Repr

/-- One normalized quote row from Yahoo!Finance: plain calendar date plus
closing price. -/
structure QuoteRow where
  date : Nat
  close : ℚ
  deriving DecidableEq, Repr

/-- One row of the "Full" DataFrame built by `_set_full` (`df.py`): CSV
columns plus the SQL subset. -/
structure PriceRecord where
  date : Nat
  close : ℚ
  curr : String
  symbol : String
  full_name : String
  nameSpace : String
  guid : String
  commodity_guid : String
  currency_guid : String
  source : String
  priceType : String
  value_num : ℚ
  value_denom : ℤ
  deriving DecidableEq, Repr, Inhabited

/-- Rounding precision by instrument classification (`df.py`, `_set_full`):
5 decimals for the CURRENCY namespace, 2 otherwise. -/
def roundPrecision (ns : String) : Nat :=
  if ns = "CURRENCY" then 5 else 2

/-- Record enrichment, from `_set_full` (src/df.py lines 121-143 and
src/GnuCash_yfinance/df.py lines 105-139, identical logic): if the
Yahoo!Finance frame is non-empty and the commodity's mnemonic differs from
the book currency, build one full record per quote row (rounded close,
identifiers, fresh uuid per row, and the value_num/value_denom pair);
otherwise the full frame stays empty.  The per-row `uuid.uuid4().hex` is
modelled by an external supply `uuidSupply` indexed by row position. -/
def setFull (commodity : Commodity) (currency : String)
    (yfDf : List QuoteRow) (uuidSupply : Nat → String) : List PriceRecord :=
  if yfDf ≠ [] ∧ commodity.mnemonic ≠ currency then
    yfDf.enum.map fun ir =>
      let c := roundTo (roundPrecision commodity.nameSpace) ir.2.close
      { date := ir.2.date
        close := c
        curr := currency
        symbol := commodity.mnemonic
        full_name := commodity.fullname
        nameSpace := commodity.nameSpace
        guid := uuidSupply ir.1
        commodity_guid := commodity.guid
        currency_guid := commodity.currency_guid
        source := "user:price"
        priceType := "last"
        value_num := c * (commodity.value_denom : ℚ)
        value_denom := commodity.value_denom }
  else []

/-- The Yahoo!Finance symbol for a commodity (`_get_yf`, both versions):
currency-class commodities are mapped to a conversion pair against the book
currency (`mnemonic + currency + "=X"`), others use their mnemonic. -/
def yfSymbol (commodity : Commodity) (currency : String) : String :=
  if commodity.nameSpace = "CURRENCY" then
    commodity.mnemonic ++ currency ++ "=X"
  else
    commodity.mnemonic

/-- Quote retrieval, from `CommodityDataFrame._get_yf`
(src/GnuCash_yfinance/df.py lines 73-103).  The external
`yfinance.Ticker(symbol).history(...)` call is a parameter
`history : FetchWindow → Except PyError (List QuoteRow)`.  `yf_df` starts
as an empty frame; in the "auto" branch the `history` call is wrapped in
`try ... except IndexError: print("No price data found.")`, so an
`IndexError` leaves the empty frame in place and is not re-raised, while
the explicit-date and period branches have no handler.  The returned pair
is (resulting frame, console log lines). -/
def getYf (commodity : Commodity) (currency : String)
    (startDate : Option Nat) (endDate : Nat) (period : String)
    (history : String → FetchWindow → Except PyError (List QuoteRow)) :
    Except PyError (List QuoteRow × List String) :=
  let symbol := yfSymbol commodity currency
  match startDate with
  | some s =>
    match history symbol (.range s endDate) with
    | .ok df => .ok (df, [])
    | .error e => .error e
  | none =>
    if period = "auto" then
      match commodity.last_price_date with
      | none => .error .typeError
      | some d =>
        match history symbol (.range (d + 1) endDate) with
        | .ok df => .ok (df, [])
        | .error .indexError => .ok ([], ["No price data found."])
        | .error e => .error e
    else
      match history symbol (.period period) with
      | .ok df => .ok (df, [])
      | .error e => .error e

/-- Quote retrieval of the legacy generation, from `DF._get_yf`
(src/df.py lines 103-119): the same symbol choice and branching as
`CommodityDataFrame._get_yf`, but with no `try/except` anywhere — any
fault raised by the `history` call, including an `IndexError` in the
"auto" branch, propagates to the caller. -/
def getYfLegacy (commodity : Commodity) (currency : String)
    (startDate : Option Nat) (endDate : Nat) (period : String)
    (history : String → FetchWindow → Except PyError (List QuoteRow)) :
    Except PyError (List QuoteRow × List String) :=
  let symbol := yfSymbol commodity currency
  match startDate with
  | some s =>
    match history symbol (.range s endDate) with
    | .ok df => .ok (df, [])
    | .error e => .error e
  | none =>
    if period = "auto" then
      match commodity.last_price_date with
      | none => .error .typeError
      | some d =>
        match history symbol (.range (d + 1) endDate) with
        | .ok df => .ok (df, [])
        | .error e => .error e
    else
      match history symbol (.period period) with
      | .ok df => .ok (df, [])
      | .error e => .error e

/-- An observable action of one run of `main` (`get_prices.py`). -/
inductive Event
  /-- The per-commodity banner printed before fetching. -/
  | printInfo (mnemonic : String)
  /-- The call `full_df.to_csv(output_path, mode = 'a', header = not os.path.exists(...))`. -/
  | csvWrite (mnemonic : String) (header : Bool)
  /-- The call `sql_df.to_sql('prices', ..., if_exists = 'append')` succeeded. -/
  | sqlWrite (mnemonic : String)
  deriving DecidableEq, Repr

/-- External circumstances of one commodity's iteration of the `main` loop:
the quote rows Yahoo!Finance returns for it and whether the MariaDB write
would succeed (a connectivity drop makes `to_sql` raise). -/
structure CommodityRun where
  commodity : Commodity
  rows : List QuoteRow
  sqlOk : Bool
  deriving Repr

/-- One iteration of the `main` loop of `get_prices.py`
(src/get_prices.py lines 111-147; src/GnuCash_yfinance/get_prices.py lines
143-179 are identical in structure): print the commodity banner, build the
full frame, and if it is non-empty write it to csv (when `to_csv`; header
only if the file does not exist yet, and the write makes it exist) and then
to MariaDB (when `to_mdb`; an exception from `to_sql` is uncaught).
Returns (events, file-exists state after, halted-by-exception flag). -/
def processCommodity (toCsv toMdb : Bool) (currency : String)
    (uuidSupply : Nat → String) (fileExists : Bool) (run : CommodityRun) :
    List Event × Bool × Bool :=
  let fullDf := setFull run.commodity currency run.rows uuidSupply
  let info := Event.printInfo run.commodity.mnemonic
  if fullDf = [] then
    ([info], fileExists, false)
  else
    let csvEvents := if toCsv then [Event.csvWrite run.commodity.mnemonic (!fileExists)] else []
    let fileExists' := if toCsv then true else fileExists
    if toMdb then
      if run.sqlOk then
        (info :: csvEvents ++ [Event.sqlWrite run.commodity.mnemonic], fileExists', false)
      else
        (info :: csvEvents, fileExists', true)
    else
      (info :: csvEvents, fileExists', false)

/-- The commodity loop of `main` (`get_prices.py`): strictly sequential;
an uncaught exception in one iteration aborts the remaining iterations. -/
def runMain (toCsv toMdb : Bool) (currency : String)
    (uuidSupply : Nat → String) :
    Bool → List CommodityRun → List Event × Bool
  | fileExists, [] => ([], fileExists)
  | fileExists, run :: rest =>
    let step := processCommodity toCsv toMdb currency uuidSupply fileExists run
    if step.2.2 then
      (step.1, step.2.1)
    else
      let tail := runMain toCsv toMdb currency uuidSupply step.2.1 rest
      (step.1 ++ tail.1, tail.2)

/-- Outcome of the overwrite interaction: either the run goes on (with the
file deleted or kept) or `sys.exit` terminates the whole script. -/
inductive CsvPromptOutcome
  /-- Control returns to the caller; the field records whether the
  pre-existing file was deleted. -/
  | continue_ (deleted : Bool)
  /-- The call `sys.exit("Exiting script...")`. -/
  | exitScript
  deriving DecidableEq, Repr

/-- The `delete_csv` of the orchestrator module (src/get_prices.py lines
149-164; src/GnuCash_yfinance/get_prices.py lines 194-215 is identical):
if the output file exists, prompt for overwrite (`overwrite` is the
operator's answer); on consent delete the file, on decline
`sys.exit("Exiting script...")`.  If the file does not exist, continue. -/
def delete_csv_main (fileExists : Bool) (overwrite : Bool) : CsvPromptOutcome :=
  if fileExists then
    if overwrite then .continue_ true
    else .exitScript
  else .continue_ false

/-- The `delete_csv` of the config module (src/GnuCash_yfinance/config.py
lines 568-596), called from `process_config` as
`data.to_csv = delete_csv(data.output_path, data.overwrite_csv)`.  Its text
reads: if the output file exists, prompt for overwrite; on consent delete
it and return `to_csv = True`, on decline return `to_csv = False`; if the
file does not exist, return `to_csv = True`.  But config.py never imports
`os` (its imports are sys, argparse, configparser, getpass, ChainMap,
date, dataclasses and helpers), so the very first statement
`if os.path.exists(output_path):` (line 580) raises `NameError` on every
call: none of the branches, in particular the skip branch, is reachable.
The bind models that the rest of the body consumes the result the failed
`os.path.exists` call would have produced. -/
def delete_csv_config (overwrite : Bool) : Except PyError Bool :=
  (Except.error PyError.nameError : Except PyError Bool).bind fun fileExists =>
    if fileExists then
      if overwrite then .ok true else .ok false
    else .ok true

/-- A row of the GnuCash `commodities` table (the columns `mdb.py` uses). -/
structure CommodityTableRow where
  guid : String
  nameSpace : String
  mnemonic : String
  fullname : String
  deriving DecidableEq, Repr

/-- A row of the GnuCash `prices` table (the columns `mdb.py` uses). -/
structure PriceTableRow where
  commodity_guid : String
  currency_guid : String
  date : Nat
  value_denom : ℤ
  deriving DecidableEq, Repr

/-- The WHERE clauses of `MDB._get_commodities` (src/mdb.py lines 113-115):
drop template commodities and the two hardcoded exclusion currencies. -/
def commodityKept (c : CommodityTableRow) : Bool :=
  c.nameSpace ≠ "template" ∧ c.mnemonic ≠ "EUR" ∧ c.mnemonic ≠ "CHE"

/-- The rows the inner join contributes for one commodity: one joined pair
per matching `prices` row (`commodities.guid == prices.commodity_guid`,
src/mdb.py line 112). -/
def contrib (ps : List PriceTableRow) (c : CommodityTableRow) :
    List (CommodityTableRow × PriceTableRow) :=
  (ps.filter fun p => p.commodity_guid = c.guid).map fun p => (c, p)

/-- The inner join of `commodities` with `prices`, with the WHERE filters
applied (src/mdb.py lines 111-115). -/
def joinedRows (cs : List CommodityTableRow) (ps : List PriceTableRow) :
    List (CommodityTableRow × PriceTableRow) :=
  (cs.filter commodityKept).flatMap (contrib ps)

/-- SQL `MAX(prices.date)` over a group; `none` models SQL NULL on an empty
group (unreachable with an inner join). -/
def maxDate? : List Nat → Option Nat
  | [] => none
  | d :: ds =>
    match maxDate? ds with
    | none => some d
    | some m => some (if d ≤ m then m else d)

/-- The `GROUP BY mnemonic` group for one mnemonic: all joined rows whose
commodity has that mnemonic. -/
def groupFor (cs : List CommodityTableRow) (ps : List PriceTableRow)
    (m : String) : List (CommodityTableRow × PriceTableRow) :=
  (joinedRows cs ps).filter fun r => r.1.mnemonic = m

/-- The output row of `MDB._get_commodities` for one mnemonic group
(src/mdb.py lines 104-110): the non-aggregated columns come from a
representative row of the group (MariaDB picks an arbitrary one without
ONLY_FULL_GROUP_BY; the first in join order is used here) and
`date(max(prices.date))` becomes `last_price_date`.  An empty group yields
no row. -/
def catalogRow? (cs : List CommodityTableRow) (ps : List PriceTableRow)
    (m : String) : Option Commodity :=
  match groupFor cs ps m with
  | [] => none
  | r :: g =>
    some { guid := r.1.guid
           nameSpace := r.1.nameSpace
           mnemonic := m
           fullname := r.1.fullname
           currency_guid := r.2.currency_guid
           last_price_date := maxDate? ((r :: g).map fun x => x.2.date)
           value_denom := r.2.value_denom }

/-- Embedding of `MDB._get_commodities` (src/mdb.py lines 95-119): join `commodities`
and `prices`, filter, and `GROUP BY mnemonic`.  MariaDB implicitly sorts
`GROUP BY` output by the grouping expression, giving the mnemonic-ordered
result; the distinct group keys are therefore sorted here. -/
def getCommodities (cs : List CommodityTableRow) (ps : List PriceTableRow) :
    List Commodity :=
  ((((joinedRows cs ps).map fun r => r.1.mnemonic).dedup).insertionSort
    (· ≤ ·)).filterMap (catalogRow? cs ps)

/-! Concrete inputs used by the witness and counterexample theorems. -/

/-- A concrete non-currency commodity (2-decimal rounding, scale 100). -/
def asml : Commodity :=
  { guid := "g1", nameSpace := "AMS", mnemonic := "ASML",
    fullname := "ASML Holding", currency_guid := "ceur",
    last_price_date := some 100, value_denom := 100 }

/-- The record `setFull` builds for `asml` from the single quote row
(date 101, close 101.2345 = 202469/2000): close rounds half-even to
101.23. -/
def asmlRecord : PriceRecord :=
  { date := 101, close := 10123 / 100, curr := "EUR", symbol := "ASML",
    full_name := "ASML Holding", nameSpace := "AMS", guid := "u0",
    commodity_guid := "g1", currency_guid := "ceur", source := "user:price",
    priceType := "last", value_num := 10123 / 100 * ((100 : ℤ) : ℚ),
    value_denom := 100 }

/-- A template commodity, excluded by the catalog query's WHERE clause. -/
def cTmpl : CommodityTableRow :=
  { guid := "gt", nameSpace := "template", mnemonic := "XTMPL",
    fullname := "Template" }

/-- The EUR commodity, one of the two hardcoded exclusion currencies. -/
def cEur : CommodityTableRow :=
  { guid := "geur", nameSpace := "CURRENCY", mnemonic := "EUR",
    fullname := "Euro" }

/-- A kept commodity with two price rows in `demoPrices`. -/
def cBesi : CommodityTableRow :=
  { guid := "gb", nameSpace := "AMS", mnemonic := "BESI",
    fullname := "BE Semiconductor" }

/-- A kept commodity with one price row in `demoPrices`. -/
def cAsml : CommodityTableRow :=
  { guid := "ga", nameSpace := "AMS", mnemonic := "ASML",
    fullname := "ASML Holding" }

/-- A small concrete `commodities` table. -/
def demoCommodities : List CommodityTableRow := [cTmpl, cEur, cBesi, cAsml]

/-- A small concrete `prices` table: BESI priced on days 5 and 9, ASML on
day 7, EUR on day 3. -/
def demoPrices : List PriceTableRow :=
  [{ commodity_guid := "gb", currency_guid := "ceur", date := 5,
     value_denom := 100 },
   { commodity_guid := "ga", currency_guid := "ceur", date := 7,
     value_denom := 100 },
   { commodity_guid := "gb", currency_guid := "ceur", date := 9,
     value_denom := 100 },
   { commodity_guid := "geur", currency_guid := "ceur", date := 3,
     value_denom := 100 }]

/-- A one-commodity `commodities` table (no mnemonic comparisons are
needed to sort its single group key). -/
def soloCommodities : List CommodityTableRow := [cAsml]

/-- A one-commodity `prices` table: ASML priced on day 7. -/
def soloPrices : List PriceTableRow :=
  [{ commodity_guid := "ga", currency_guid := "ceur", date := 7,
     value_denom := 100 }]

/-! ## Theorems -/

/-- C1: with no explicit start date and period "auto", an instrument with a
non-null last-known price date gets a fetch window starting exactly at
last-known-date + 1 day and ending at the configured end date. -/
theorem auto_window_starts_day_after_last_price (endDate : Nat) (d : Nat) :
    resolveWindow none endDate "auto" (some d) =
      .ok (.range (d + 1) endDate) := rfl

/-- C2 counterexample: with a null last-known price date in "auto" mode the
resolver does not signal a full-history fetch — it produces no window at
all, because `None + timedelta(1)` raises a `TypeError`. -/
theorem auto_window_null_last_date_not_full_history :
    resolveWindow none 0 "auto" none = .error .typeError ∧
      (resolveWindow none 0 "auto" none).isOk = false := by
  constructor <;> rfl

/-- C2 amended: with a null last-known price date, no explicit start date
and period "auto", the resolver performs the date arithmetic
`None + timedelta(1)`, which raises an uncaught `TypeError`; it never
produces a fetch window, full-history or otherwise. -/
theorem auto_window_null_last_date_raises (endDate : Nat) :
    resolveWindow none endDate "auto" none = .error .typeError := rfl

theorem roundHalfEven_intCast (n : ℤ) : roundHalfEven (n : ℚ) = n := by
  simp [roundHalfEven]

theorem roundTo_roundTo (d : Nat) (q : ℚ) :
    roundTo d (roundTo d q) = roundTo d q := by
  have h10 : ((10 : ℚ) ^ d) ≠ 0 := by positivity
  unfold roundTo
  rw [div_mul_cancel₀ _ h10, roundHalfEven_intCast]

/-- C3: every generated record's denominator is the commodity's
denomination scale, its numerator is the already-rounded close times that
scale, and (when the scale is non-zero) numerator / denominator rounded to
the instrument's precision gives back the record's close. -/
theorem record_value_roundtrip (commodity : Commodity) (currency : String)
    (yfDf : List QuoteRow) (u : Nat → String) (r : PriceRecord)
    (hr : r ∈ setFull commodity currency yfDf u)
    (hden : commodity.value_denom ≠ 0) :
    r.value_denom = commodity.value_denom ∧
      r.value_num = r.close * (commodity.value_denom : ℚ) ∧
      roundTo (roundPrecision commodity.nameSpace)
        (r.value_num / (r.value_denom : ℚ)) = r.close := by
  unfold setFull at hr
  split at hr
  · obtain ⟨ir, -, rfl⟩ := List.mem_map.mp hr
    refine ⟨rfl, rfl, ?_⟩
    have hdq : ((commodity.value_denom : ℚ)) ≠ 0 := by exact_mod_cast hden
    show roundTo _ (_ * (commodity.value_denom : ℚ) / (commodity.value_denom : ℚ)) = _
    rw [mul_div_assoc, div_self hdq, mul_one, roundTo_roundTo]
  · simp at hr

/-- C3 witness: the concrete record enriched from the quote row
(date 101, close 101.2345) for the security `asml` (scale 100). -/
theorem record_value_roundtrip_witness :
    asmlRecord.value_denom = asml.value_denom ∧
      asmlRecord.value_num = asmlRecord.close * (asml.value_denom : ℚ) ∧
      roundTo (roundPrecision asml.nameSpace)
        (asmlRecord.value_num / (asmlRecord.value_denom : ℚ)) =
        asmlRecord.close := by
  refine record_value_roundtrip asml "EUR" [⟨101, 202469 / 2000⟩]
    (fun _ => "u0") asmlRecord ?_ (by decide)
  have hp : roundPrecision "AMS" = 2 := rfl
  have h1 : roundTo 2 ((202469 : ℚ) / 2000) = 10123 / 100 := by
    norm_num [roundTo, roundHalfEven, Int.fract, Int.even_iff]
  have h2 : setFull asml "EUR" [⟨101, 202469 / 2000⟩] (fun _ => "u0") =
      [asmlRecord] := by
    rw [setFull, if_pos (by simp [asml])]
    simp only [List.enum, List.enumFrom, List.map]
    norm_num [asml, asmlRecord, hp, h1]
  rw [h2]
  exact List.mem_singleton.mpr rfl

/-- C4: mnemonic equal to the book currency yields an empty full frame, no
matter what the quote source returned. -/
theorem self_pair_yields_no_records (commodity : Commodity)
    (currency : String) (yfDf : List QuoteRow) (u : Nat → String)
    (h : commodity.mnemonic = currency) :
    setFull commodity currency yfDf u = [] := by
  unfold setFull
  simp [h]

/-- C4 witness: a USD-mnemonic commodity against a USD book, with a
non-empty quote series, produces no records. -/
theorem self_pair_yields_no_records_witness :
    setFull
      { guid := "g2", nameSpace := "CURRENCY", mnemonic := "USD",
        fullname := "US Dollar", currency_guid := "ceur",
        last_price_date := some 100, value_denom := 10000 }
      "USD" [⟨101, 9 / 10⟩, ⟨102, 91 / 100⟩] (fun _ => "u0") = [] :=
  self_pair_yields_no_records _ "USD" _ _ rfl

/-- C5: a commodity whose enriched frame is empty contributes only its
console banner — no csv write (so no header line either), no MariaDB
write, no exception — and the loop continues with the remaining
commodities from an unchanged file state. -/
theorem empty_frame_skips_sinks (toCsv toMdb : Bool) (currency : String)
    (u : Nat → String) (fileExists : Bool) (run : CommodityRun)
    (rest : List CommodityRun)
    (h : setFull run.commodity currency run.rows u = []) :
    runMain toCsv toMdb currency u fileExists (run :: rest) =
      (Event.printInfo run.commodity.mnemonic ::
          (runMain toCsv toMdb currency u fileExists rest).1,
        (runMain toCsv toMdb currency u fileExists rest).2) := by
  simp [runMain, processCommodity, h]

/-- C5 witness: a run whose quote source returned an empty table, followed
by nothing, produces just the banner and leaves the file state alone. -/
theorem empty_frame_skips_sinks_witness :
    runMain true true "EUR" (fun _ => "u0") false [⟨asml, [], true⟩] =
      (Event.printInfo "ASML" ::
          (runMain true true "EUR" (fun _ => "u0") false []).1,
        (runMain true true "EUR" (fun _ => "u0") false []).2) :=
  empty_frame_skips_sinks true true "EUR" (fun _ => "u0") false
    ⟨asml, [], true⟩ [] (by simp [setFull])

/-- C6 counterexample: commodity A's MariaDB write fails (uncaught
`to_sql` exception) and commodity B, next in sequence, is never processed:
the run's event trace stops after A's csv write, with no banner and no
write for B — refuting "every subsequent instrument in the run is still
processed normally". -/
theorem sql_failure_counterexample :
    (runMain true true "EUR" (fun _ => "u0") false
        [⟨asml, [⟨101, 2⟩], false⟩,
         ⟨{ asml with guid := "g3", mnemonic := "BESI" }, [⟨101, 3⟩], true⟩]).1 =
      [Event.printInfo "ASML", Event.csvWrite "ASML" true] ∧
      Event.printInfo "BESI" ∉
        (runMain true true "EUR" (fun _ => "u0") false
          [⟨asml, [⟨101, 2⟩], false⟩,
           ⟨{ asml with guid := "g3", mnemonic := "BESI" }, [⟨101, 3⟩], true⟩]).1 ∧
      Event.sqlWrite "BESI" ∉
        (runMain true true "EUR" (fun _ => "u0") false
          [⟨asml, [⟨101, 2⟩], false⟩,
           ⟨{ asml with guid := "g3", mnemonic := "BESI" }, [⟨101, 3⟩], true⟩]).1 := by
  refine ⟨?_, ?_, ?_⟩ <;> simp [runMain, processCommodity, setFull, asml]

/-- C6 amended: when the MariaDB write fails for a commodity with a
non-empty frame (both sinks enabled), the csv write for that same
commodity has already happened — it precedes the `to_sql` call — but the
`to_sql` exception is uncaught, so the run halts and no later commodity is
processed. -/
theorem sql_failure_halts_run (currency : String) (u : Nat → String)
    (fileExists : Bool) (run : CommodityRun) (rest : List CommodityRun)
    (hne : setFull run.commodity currency run.rows u ≠ [])
    (hfail : run.sqlOk = false) :
    runMain true true currency u fileExists (run :: rest) =
      ([Event.printInfo run.commodity.mnemonic,
        Event.csvWrite run.commodity.mnemonic (!fileExists)], true) := by
  simp [runMain, processCommodity, hne, hfail]

/-- C6 amended witness: the two-commodity trace from the counterexample,
obtained from the general halting theorem. -/
theorem sql_failure_halts_run_witness :
    runMain true true "EUR" (fun _ => "u0") false
        [⟨asml, [⟨101, 2⟩], false⟩,
         ⟨{ asml with guid := "g3", mnemonic := "BESI" }, [⟨101, 3⟩], true⟩] =
      ([Event.printInfo "ASML", Event.csvWrite "ASML" true], true) :=
  sql_failure_halts_run "EUR" (fun _ => "u0") false ⟨asml, [⟨101, 2⟩], false⟩
    [⟨{ asml with guid := "g3", mnemonic := "BESI" }, [⟨101, 3⟩], true⟩]
    (by simp [setFull, asml]) rfl

/-- C7 counterexample: when the output file exists and the operator
declines the overwrite prompt, the orchestrator's `delete_csv` calls
`sys.exit("Exiting script...")` — the whole run aborts instead of merely
skipping the file sink. -/
theorem decline_overwrite_exits_script :
    delete_csv_main true false = CsvPromptOutcome.exitScript := rfl

/-- C7 amended: declining the overwrite prompt never merely skips the file
sink.  The `delete_csv` defined and invoked in the `get_prices`
orchestrator module exits the whole script on decline; and the config
module's `delete_csv` — the only variant whose text returns a skip value —
raises `NameError` on every call, because config.py uses `os.path` without
importing `os`, so its skip branch is unreachable. -/
theorem decline_overwrite_aborts_or_errors :
    delete_csv_main true false = CsvPromptOutcome.exitScript ∧
      ∀ overwrite, delete_csv_config overwrite =
        Except.error PyError.nameError :=
  ⟨rfl, fun _ => rfl⟩

/-- C8 counterexample: the claim also covers the legacy `DF._get_yf`
(src/df.py lines 110-119), which has no exception handler: with a quote
source raising `IndexError` on the day-after-last-known window, the fault
propagates to the caller instead of being caught and treated as "no new
data". -/
theorem auto_index_fault_propagates_in_legacy :
    getYfLegacy asml "EUR" none 200 "auto" (fun _ _ => .error .indexError) =
      .error .indexError := rfl

/-- C8 amended: in the "auto" branch (no explicit start date), when the
upstream `history` call for the day-after-last-known window raises
`IndexError`, the package generation (`CommodityDataFrame._get_yf`)
catches it, logs "No price data found.", and returns the still-empty
frame, so the fault never reaches its caller; the legacy generation
(`DF._get_yf`) has no handler and propagates the same fault to its
caller. -/
theorem auto_index_fault_caught_only_in_package (commodity : Commodity)
    (currency : String) (endDate : Nat) (d : Nat)
    (history : String → FetchWindow → Except PyError (List QuoteRow))
    (hlast : commodity.last_price_date = some d)
    (hfault : history (yfSymbol commodity currency) (.range (d + 1) endDate) =
      .error .indexError) :
    getYf commodity currency none endDate "auto" history =
      .ok ([], ["No price data found."]) ∧
      getYfLegacy commodity currency none endDate "auto" history =
        .error .indexError := by
  constructor
  · simp [getYf, hlast, hfault]
  · simp [getYfLegacy, hlast, hfault]

/-- C8 amended witness: a quote source that always raises `IndexError`,
against `asml` (last price on day 100): the package generation returns the
empty frame with the log line, the legacy generation re-raises. -/
theorem auto_index_fault_caught_only_in_package_witness :
    (getYf asml "EUR" none 200 "auto" (fun _ _ => .error .indexError) =
      .ok ([], ["No price data found."])) ∧
      getYfLegacy asml "EUR" none 200 "auto" (fun _ _ => .error .indexError) =
        .error .indexError :=
  auto_index_fault_caught_only_in_package asml "EUR" 200 100
    (fun _ _ => .error .indexError) rfl rfl

theorem maxDate?_eq_none {l : List Nat} : maxDate? l = none ↔ l = [] := by
  cases l with
  | nil => simp [maxDate?]
  | cons d ds =>
    rw [maxDate?]
    cases h : maxDate? ds <;> simp

theorem maxDate?_isSome (d : Nat) (ds : List Nat) :
    (maxDate? (d :: ds)).isSome := by
  rw [maxDate?]
  cases h : maxDate? ds <;> simp

theorem maxDate?_spec {l : List Nat} {d : Nat} (h : maxDate? l = some d) :
    d ∈ l ∧ ∀ x ∈ l, x ≤ d := by
  induction l generalizing d with
  | nil => simp [maxDate?] at h
  | cons a t ih =>
    rw [maxDate?] at h
    cases ht : maxDate? t with
    | none =>
      rw [ht] at h
      injection h with h'
      subst h'
      rw [maxDate?_eq_none.mp ht]
      simp
    | some m =>
      rw [ht] at h
      injection h with h'
      subst h'
      obtain ⟨hm, hb⟩ := ih ht
      constructor
      · split
        · exact List.mem_cons_of_mem a hm
        · exact List.mem_cons_self a t
      · intro x hx
        rcases List.mem_cons.mp hx with rfl | hx
        · split <;> omega
        · have := hb x hx
          split <;> omega

theorem mem_contrib {ps : List PriceTableRow} {c : CommodityTableRow}
    {x : CommodityTableRow × PriceTableRow} :
    x ∈ contrib ps c ↔
      x.1 = c ∧ x.2 ∈ ps ∧ x.2.commodity_guid = c.guid := by
  cases x with
  | mk c' p =>
    simp only [contrib, List.mem_map, List.mem_filter, decide_eq_true_eq,
      Prod.mk.injEq]
    constructor
    · rintro ⟨p', ⟨hp', hg⟩, hc, hp⟩
      subst hc; subst hp
      exact ⟨rfl, hp', hg⟩
    · rintro ⟨rfl, hp, hg⟩
      exact ⟨p, ⟨hp, hg⟩, rfl, rfl⟩

theorem mem_joinedRows {cs : List CommodityTableRow}
    {ps : List PriceTableRow} {x : CommodityTableRow × PriceTableRow} :
    x ∈ joinedRows cs ps ↔
      x.1 ∈ cs ∧ commodityKept x.1 = true ∧ x.2 ∈ ps ∧
        x.2.commodity_guid = x.1.guid := by
  simp only [joinedRows, List.mem_flatMap, List.mem_filter, mem_contrib]
  constructor
  · rintro ⟨c, ⟨hc, hk⟩, h1, h2, h3⟩
    subst h1
    exact ⟨hc, hk, h2, h3⟩
  · rintro ⟨hc, hk, hp, hg⟩
    exact ⟨x.1, ⟨hc, hk⟩, rfl, hp, hg⟩

theorem groupFor_eq_contrib (cs : List CommodityTableRow)
    (ps : List PriceTableRow) (hnd : cs.Nodup)
    (huniq : ∀ c1 ∈ cs, ∀ c2 ∈ cs, c1.mnemonic = c2.mnemonic → c1 = c2)
    {c : CommodityTableRow} (hc : c ∈ cs) (hk : commodityKept c = true) :
    groupFor cs ps c.mnemonic = contrib ps c := by
  induction cs with
  | nil => cases hc
  | cons a t ih =>
    have hndt : t.Nodup := (List.nodup_cons.mp hnd).2
    have huniqt : ∀ c1 ∈ t, ∀ c2 ∈ t, c1.mnemonic = c2.mnemonic → c1 = c2 :=
      fun c1 h1 c2 h2 =>
        huniq c1 (List.mem_cons_of_mem a h1) c2 (List.mem_cons_of_mem a h2)
    rw [groupFor, joinedRows, List.filter_cons]
    by_cases hka : commodityKept a
    · rw [if_pos hka, List.flatMap_cons, List.filter_append]
      rcases List.mem_cons.mp hc with rfl | hct
      · have h1 : (contrib ps c).filter
            (fun r => decide (r.1.mnemonic = c.mnemonic)) = contrib ps c := by
          apply List.filter_eq_self.mpr
          intro x hx
          rw [(mem_contrib.mp hx).1]
          simp
        have h2 : ((t.filter commodityKept).flatMap (contrib ps)).filter
            (fun r => decide (r.1.mnemonic = c.mnemonic)) = [] := by
          rw [List.filter_eq_nil_iff]
          intro x hx
          have hxj : x ∈ joinedRows t ps := by rw [joinedRows]; exact hx
          obtain ⟨hx1, -, -, -⟩ := mem_joinedRows.mp hxj
          simp only [decide_eq_true_eq]
          intro hxm
          have : x.1 = c :=
            huniq x.1 (List.mem_cons_of_mem c hx1) c (List.mem_cons_self c t)
              hxm
          rw [this] at hx1
          exact (List.nodup_cons.mp hnd).1 hx1
        rw [h1, h2, List.append_nil]
      · have hac : a ≠ c := by
          rintro rfl
          exact (List.nodup_cons.mp hnd).1 hct
        have h1 : (contrib ps a).filter
            (fun r => decide (r.1.mnemonic = c.mnemonic)) = [] := by
          rw [List.filter_eq_nil_iff]
          intro x hx
          rw [(mem_contrib.mp hx).1]
          simp only [decide_eq_true_eq]
          intro hm
          exact hac (huniq a (List.mem_cons_self a t) c
            (List.mem_cons_of_mem a hct) hm)
        rw [h1, List.nil_append]
        exact ih hndt huniqt hct
    · rw [if_neg hka]
      rcases List.mem_cons.mp hc with rfl | hct
      · exact absurd hk hka
      · exact ih hndt huniqt hct

theorem catalogRow?_mnemonic {cs : List CommodityTableRow}
    {ps : List PriceTableRow} {m : String} {r : Commodity}
    (h : catalogRow? cs ps m = some r) : r.mnemonic = m := by
  unfold catalogRow? at h
  split at h
  · exact Option.noConfusion h
  · injection h with h'
    subst h'
    rfl

theorem filterMap_shrink_sublist {α : Type _} (f : α → Option α)
    (h : ∀ a b, f a = some b → b = a) :
    ∀ l : List α, List.Sublist (l.filterMap f) l := by
  intro l
  induction l with
  | nil => simp
  | cons a t ih =>
    rw [List.filterMap_cons]
    cases hfa : f a with
    | none => exact ih.cons a
    | some b => rw [h a b hfa]; exact ih.cons₂ a

/-- C9: the catalog reader's output excludes template commodities and the
two hardcoded exclusion currencies, is sorted by mnemonic, and — when
mnemonics identify commodities uniquely — each row's `last_price_date` is
`MAX(date)` over exactly that commodity's own price rows, with the row's
guid being that commodity's guid. -/
theorem catalog_reader_contract (cs : List CommodityTableRow)
    (ps : List PriceTableRow) (hnd : cs.Nodup)
    (huniq : ∀ c1 ∈ cs, ∀ c2 ∈ cs, c1.mnemonic = c2.mnemonic → c1 = c2) :
    List.Sorted (· ≤ ·) ((getCommodities cs ps).map Commodity.mnemonic) ∧
      ∀ r ∈ getCommodities cs ps,
        (r.nameSpace ≠ "template" ∧ r.mnemonic ≠ "EUR" ∧ r.mnemonic ≠ "CHE") ∧
        ∃ c ∈ cs, commodityKept c = true ∧ r.guid = c.guid ∧
          r.mnemonic = c.mnemonic ∧
          r.last_price_date =
            maxDate? ((ps.filter fun p => p.commodity_guid = c.guid).map
              PriceTableRow.date) := by
  constructor
  · have hsub : List.Sublist ((getCommodities cs ps).map Commodity.mnemonic)
        ((((joinedRows cs ps).map fun r => r.1.mnemonic).dedup).insertionSort
          (· ≤ ·)) := by
      rw [getCommodities, List.map_filterMap]
      apply filterMap_shrink_sublist
      intro a b hb
      cases hr : catalogRow? cs ps a with
      | none => rw [hr] at hb; exact Option.noConfusion hb
      | some r =>
        rw [hr] at hb
        injection hb with hb'
        rw [← hb']
        exact catalogRow?_mnemonic hr
    exact List.Pairwise.sublist hsub
      (List.sorted_insertionSort (· ≤ ·) _)
  · intro r hr
    rw [getCommodities] at hr
    obtain ⟨m, -, hrow⟩ := List.mem_filterMap.mp hr
    unfold catalogRow? at hrow
    split at hrow
    · exact Option.noConfusion hrow
    case _ hd tl hg =>
      injection hrow with hrec
      subst hrec
      have hhd : hd ∈ groupFor cs ps m := by
        rw [hg]; exact List.mem_cons_self _ _
      rw [groupFor, List.mem_filter] at hhd
      obtain ⟨hdj, hdm⟩ := hhd
      have hdm' : hd.1.mnemonic = m := by simpa using hdm
      obtain ⟨hc1, hk1, hp1, hpg1⟩ := mem_joinedRows.mp hdj
      have hkept := hk1
      simp only [commodityKept, decide_eq_true_eq] at hkept
      refine ⟨⟨hkept.1, ?_, ?_⟩, hd.1, hc1, hk1, rfl, hdm'.symm, ?_⟩
      · show m ≠ "EUR"
        rw [← hdm']; exact hkept.2.1
      · show m ≠ "CHE"
        rw [← hdm']; exact hkept.2.2
      · show maxDate? ((hd :: tl).map fun x => x.2.date) = _
        have hgrp : groupFor cs ps m = contrib ps hd.1 := by
          rw [← hdm']
          exact groupFor_eq_contrib cs ps hnd huniq hc1 hk1
        have hcons : hd :: tl = contrib ps hd.1 := by
          rw [← hg, hgrp]
        rw [hcons, contrib, List.map_map]
        rfl

/-- C9 witness: on the concrete demo tables, the catalog output is sorted
by mnemonic, keeps only non-template non-EUR/CHE commodities, and carries
each commodity's maximum price date. -/
theorem catalog_reader_contract_witness :
    List.Sorted (· ≤ ·)
        ((getCommodities demoCommodities demoPrices).map Commodity.mnemonic) ∧
      ∀ r ∈ getCommodities demoCommodities demoPrices,
        (r.nameSpace ≠ "template" ∧ r.mnemonic ≠ "EUR" ∧ r.mnemonic ≠ "CHE") ∧
        ∃ c ∈ demoCommodities, commodityKept c = true ∧ r.guid = c.guid ∧
          r.mnemonic = c.mnemonic ∧
          r.last_price_date =
            maxDate? ((demoPrices.filter fun p =>
              p.commodity_guid = c.guid).map PriceTableRow.date) :=
  catalog_reader_contract demoCommodities demoPrices (by decide) (by decide)

/-- C10: every row the catalog reader returns was produced through the
inner join with the `prices` table, so it has at least one price row
(matching its representative guid) and a non-null `last_price_date`. -/
theorem catalog_rows_have_price (cs : List CommodityTableRow)
    (ps : List PriceTableRow) :
    ∀ r ∈ getCommodities cs ps,
      r.last_price_date.isSome = true ∧
        ∃ p ∈ ps, p.commodity_guid = r.guid := by
  intro r hr
  rw [getCommodities] at hr
  obtain ⟨m, -, hrow⟩ := List.mem_filterMap.mp hr
  unfold catalogRow? at hrow
  split at hrow
  · exact Option.noConfusion hrow
  case _ hd tl hg =>
    injection hrow with hrec
    subst hrec
    have hhd : hd ∈ groupFor cs ps m := by
      rw [hg]; exact List.mem_cons_self _ _
    rw [groupFor, List.mem_filter] at hhd
    obtain ⟨hdj, -⟩ := hhd
    obtain ⟨-, -, hp1, hpg1⟩ := mem_joinedRows.mp hdj
    refine ⟨?_, hd.2, hp1, hpg1⟩
    show (maxDate? ((hd :: tl).map fun x => x.2.date)).isSome = true
    rw [List.map_cons]
    exact maxDate?_isSome _ _

/-- C10 witness: the single row of the one-commodity catalog has a
non-null last price date and a matching price row. -/
theorem catalog_rows_have_price_witness :
    ({ guid := "ga", nameSpace := "AMS", mnemonic := "ASML",
       fullname := "ASML Holding", currency_guid := "ceur",
       last_price_date := some 7, value_denom := 100 } :
        Commodity).last_price_date.isSome = true ∧
      ∃ p ∈ soloPrices, p.commodity_guid =
        ({ guid := "ga", nameSpace := "AMS", mnemonic := "ASML",
           fullname := "ASML Holding", currency_guid := "ceur",
           last_price_date := some 7, value_denom := 100 } :
            Commodity).guid :=
  catalog_rows_have_price soloCommodities soloPrices _ (by decide)

end GnuCashYF
